import Mathlib

/-!
Verification of the ASR acquisition/normalization core of the 2sub repository.

The Go code manipulates decoded JSON values (`map[string]interface{}`,
`[]interface{}`, `string`, `float64`) via dynamic type assertions.  We embed
decoded JSON as the inductive type `Json`, with numbers modelled as exact
rationals (an idealization of `float64`), objects as association lists, and a
Go type assertion `v.(T)` as a partial accessor returning `Option`.
`int64(x)` conversion of a non-negative float truncates toward zero; we model
it by `ratTruncToInt`.
-/

/-- Decoded JSON value, the shallow embedding of Go's `interface{}` after
`encoding/json` unmarshalling: `nil`, `bool`, `float64` (as an exact
rational), `string`, `[]interface{}`, `map[string]interface{}`. -/

inductive Json where
  | null : Json
  | bool : Bool → Json
  | num : ℚ → Json
  | str : String → Json
  | arr : List Json → Json
  | obj : List (String × Json) → Json

/-- Association-list lookup, modelling Go map indexing `m[key]` (the inputs we
consider have distinct keys, as Go maps do). -/

def jlookup : List (String × Json) → String → Option Json
  | [], _ => none
  | (k, v) :: rest, key => if k = key then some v else jlookup rest key

/-- Field access `m[key]` on a decoded JSON value; `none` when the value is
not an object or the key is absent. -/

def Json.get? : Json → String → Option Json
  | .obj kvs, key => jlookup kvs key
  | _, _ => none

/-- Go type assertion `m[key].(string)`. -/

def getStr (j : Json) (k : String) : Option String :=
  match j.get? k with
  | some (.str s) => some s
  | _ => none

/-- Go type assertion `m[key].(float64)`. -/

def getNum (j : Json) (k : String) : Option ℚ :=
  match j.get? k with
  | some (.num q) => some q
  | _ => none

/-- Go type assertion `m[key].([]interface{})`. -/

def getArr (j : Json) (k : String) : Option (List Json) :=
  match j.get? k with
  | some (.arr a) => some a
  | _ => none

/-- Go type assertion `m[key].(map[string]interface{})`. -/

def getObj (j : Json) (k : String) : Option Json :=
  match j.get? k with
  | some (.obj kvs) => some (.obj kvs)
  | _ => none

/-- Whether a JSON value is an object (Go type assertion `v.(map[string]interface{})` succeeding). -/

def Json.isObj : Json → Bool
  | .obj _ => true
  | _ => false

/-- Go's `int64(x)` conversion of a float: truncation toward zero, on the
exact-rational model of `float64`. -/

def ratTruncToInt (q : ℚ) : ℤ :=
  Int.sign q.num * ((q.num.natAbs / q.den : ℕ) : ℤ)

/-- On non-negative arguments, truncation toward zero is bounded by the
argument: it behaves as the floor. -/

structure Word where
  Text : String
  Start : ℤ
  End : ℤ
  SpeakerID : String
deriving DecidableEq

/-- Sentence-level segment of the canonical transcript model (`asr.Sentence`). -/

structure Sentence where
  Text : String
  Start : ℤ
  End : ℤ
  SpeakerID : String
deriving DecidableEq

/-- Canonical transcript model (`asr.StandardResult`). -/

structure StandardResult where
  Text : String
  Words : List Word
  Sentences : List Sentence
  Language : String
deriving DecidableEq

/-- Parse-phase error (`ParseError`); the wrapped `Err` is nil at every parse
site modelled here, so only the message is kept. -/

structure ParseError where
  Message : String
deriving DecidableEq

/-- All words of a result have non-negative, ordered timestamps. -/

def wordsOrdered (r : StandardResult) : Prop :=
  ∀ w ∈ r.Words, 0 ≤ w.Start ∧ w.Start ≤ w.End

instance (r : StandardResult) : Decidable (wordsOrdered r) := by
  unfold wordsOrdered
  infer_instance

/-- One iteration of the word loop of the ElevenLabs `parse`
(src/asr/providers/elevenlabs/parse.go, lines 31-53): non-objects are
skipped (`continue`); missing or wrong-shaped `text`/`start`/`end` fields
take Go zero values; seconds are converted to milliseconds by `int64(x*1000)`;
`speaker_id` is copied when present and non-empty. -/

def elWordOf (j : Json) : Option Word :=
  match j with
  | .obj _ =>
    let wordText := (getStr j "text").getD ""
    let start := (getNum j "start").getD 0
    let endv := (getNum j "end").getD 0
    let speaker :=
      match getStr j "speaker_id" with
      | some s => if s = "" then "" else s
      | none => ""
    some { Text := wordText, Start := ratTruncToInt (start * 1000),
           End := ratTruncToInt (endv * 1000), SpeakerID := speaker }
  | _ => none

/-- ElevenLabs `parse` (src/asr/providers/elevenlabs/parse.go): requires a
string `text` field and an array `words` field, copies `language_code` when
present, normalizes each word entry, and fails when no words were
extracted. -/

def elevenlabsParse (response : Json) : Except ParseError StandardResult :=
  match getStr response "text" with
  | none => .error ⟨"missing text field in response"⟩
  | some text =>
    match getArr response "words" with
    | none => .error ⟨"missing words field in response"⟩
    | some wordsRaw =>
      if wordsRaw.filterMap elWordOf = [] then .error ⟨"no words found in response"⟩
      else .ok { Text := text, Words := wordsRaw.filterMap elWordOf,
                 Sentences := [],
                 Language := (getStr response "language_code").getD "" }

/-- The spec's example raw ElevenLabs response:
`{"text":"hi there","words":[{"text":"hi","start":0.0,"end":0.4,"speaker_id":"A"},{"text":"there","start":0.4,"end":0.9}],"language_code":"en"}`. -/

def elExample : Json :=
  .obj [("text", .str "hi there"),
        ("words", .arr
          [.obj [("text", .str "hi"), ("start", .num 0), ("end", .num (2/5)),
                 ("speaker_id", .str "A")],
           .obj [("text", .str "there"), ("start", .num (2/5)), ("end", .num (9/10))]]),
        ("language_code", .str "en")]

/-- The normalization the spec expects for `elExample`. -/

def elExampleResult : StandardResult :=
  { Text := "hi there",
    Words := [⟨"hi", 0, 400, "A"⟩, ⟨"there", 400, 900, ""⟩],
    Sentences := [],
    Language := "en" }

def jySpeakerOf (j : Json) : String :=
  match getObj j "attribute" with
  | some attr =>
    match getStr attr "speaker" with
    | some s => if s = "" then "" else s
    | none => ""
  | none => ""

/-- Language extraction of the JianYing `parse`:
`data.attribute.extra.language` when present. -/

def jyLanguageOf (data : Json) : String :=
  match getObj data "attribute" with
  | some attr =>
    match getObj attr "extra" with
    | some extra => (getStr extra "language").getD ""
    | none => ""
  | none => ""

/-- One iteration of the word loop of the JianYing `parse` (parse.go lines
75-99): non-objects are skipped; missing per-word fields take Go zero
values; `start_time`/`end_time` are already milliseconds, converted by
`int64(x)`. -/

def jyWordOf (j : Json) : Option Word :=
  match j with
  | .obj _ =>
    some { Text := (getStr j "text").getD "",
           Start := ratTruncToInt ((getNum j "start_time").getD 0),
           End := ratTruncToInt ((getNum j "end_time").getD 0),
           SpeakerID := jySpeakerOf j }
  | _ => none

/-- Text part contributed by one JianYing utterance: its `text` field when
non-empty. -/

def jyUttText (utt : Json) : List String :=
  let text := (getStr utt "text").getD ""
  if text = "" then [] else [text]

/-- Sentence contributed by one JianYing utterance: present exactly when its
`text` is non-empty. -/

def jyUttSentence (utt : Json) : List Sentence :=
  let text := (getStr utt "text").getD ""
  if text = "" then []
  else [{ Text := text,
          Start := ratTruncToInt ((getNum utt "start_time").getD 0),
          End := ratTruncToInt ((getNum utt "end_time").getD 0),
          SpeakerID := jySpeakerOf utt }]

/-- Words contributed by one JianYing utterance: its `words` array when it is
an array (`continue` otherwise), each entry normalized by `jyWordOf`. -/

def jyUttWords (utt : Json) : List Word :=
  match getArr utt "words" with
  | some ws => ws.filterMap jyWordOf
  | none => []

/-- JianYing `parse` (src/pkgs/asr/providers/jianying/parse.go): requires
`data` (object) and `data.utterances` (array); per utterance collects the
text part, the sentence and the words, skipping non-object utterances
(`continue`); joins the text parts; fails when no words were extracted. -/

def jyParse (response : Json) : Except ParseError StandardResult :=
  match getObj response "data" with
  | none => .error ⟨"missing data field in response"⟩
  | some data =>
    match getArr data "utterances" with
    | none => .error ⟨"missing utterances field in data"⟩
    | some utterancesRaw =>
      if ((utterancesRaw.filter Json.isObj).map jyUttWords).flatten = [] then
        .error ⟨"no words found in response"⟩
      else .ok { Text := String.join (((utterancesRaw.filter Json.isObj).map jyUttText).flatten),
                 Words := ((utterancesRaw.filter Json.isObj).map jyUttWords).flatten,
                 Sentences := ((utterancesRaw.filter Json.isObj).map jyUttSentence).flatten,
                 Language := jyLanguageOf data }

/-- One iteration of the word loop of the Bijian `parse`
(src/pkgs/asr/providers/bijian/fetch.go, second document, lines 376-391):
non-objects are skipped; `label` is the word text; times already in
milliseconds. -/

def bjWordOf (j : Json) : Option Word :=
  match j with
  | .obj _ =>
    some { Text := (getStr j "label").getD "",
           Start := ratTruncToInt ((getNum j "start_time").getD 0),
           End := ratTruncToInt ((getNum j "end_time").getD 0),
           SpeakerID := "" }
  | _ => none

/-- Text part contributed by one Bijian utterance: its `transcript` field
when non-empty. -/

def bjUttText (utt : Json) : List String :=
  let transcript := (getStr utt "transcript").getD ""
  if transcript = "" then [] else [transcript]

/-- Sentence contributed by one Bijian utterance. -/

def bjUttSentence (utt : Json) : List Sentence :=
  let transcript := (getStr utt "transcript").getD ""
  if transcript = "" then []
  else [{ Text := transcript,
          Start := ratTruncToInt ((getNum utt "start_time").getD 0),
          End := ratTruncToInt ((getNum utt "end_time").getD 0),
          SpeakerID := "" }]

/-- Words contributed by one Bijian utterance. -/

def bjUttWords (utt : Json) : List Word :=
  match getArr utt "words" with
  | some ws => ws.filterMap bjWordOf
  | none => []

/-- Bijian `parse` (src/pkgs/asr/providers/bijian/fetch.go, second document):
requires a top-level `utterances` array; otherwise structured like the
JianYing normalizer; never sets `Language`. -/

def bjParse (response : Json) : Except ParseError StandardResult :=
  match getArr response "utterances" with
  | none => .error ⟨"missing utterances field in response"⟩
  | some utterancesRaw =>
    if ((utterancesRaw.filter Json.isObj).map bjUttWords).flatten = [] then
      .error ⟨"no words found in response"⟩
    else .ok { Text := String.join (((utterancesRaw.filter Json.isObj).map bjUttText).flatten),
               Words := ((utterancesRaw.filter Json.isObj).map bjUttWords).flatten,
               Sentences := ((utterancesRaw.filter Json.isObj).map bjUttSentence).flatten,
               Language := "" }

def jsonWs (c : Char) : Bool :=
  c = ' ' || c = '\n' || c = '\t' || c = '\r'

/-- Skip leading JSON whitespace. -/

def skipWs : List Char → List Char
  | [] => []
  | c :: cs => if jsonWs c then skipWs cs else c :: cs

/-- Read the characters of a JSON string literal up to the closing quote
(escape sequences are outside the subset used by this code). -/

def readStrChars : List Char → Option (List Char × List Char)
  | [] => none
  | c :: cs =>
    if c = '"' then some ([], cs)
    else if c = '\\' then none
    else
      match readStrChars cs with
      | some (acc, rest) => some (c :: acc, rest)
      | none => none

/-- Numeric value of a decimal digit. -/

def digitVal (c : Char) : Option ℕ :=
  if '0' ≤ c ∧ c ≤ '9' then some (c.toNat - '0'.toNat) else none

/-- Read a maximal run of decimal digits, returning the value read, the
number of digits, and the remaining input. -/

def readDigits : List Char → ℕ → ℕ → ℕ × ℕ × List Char
  | [], acc, n => (acc, n, [])
  | c :: cs, acc, n =>
    match digitVal c with
    | some d => readDigits cs (acc * 10 + d) (n + 1)
    | none => (acc, n, c :: cs)

/-- Read a JSON number (optional sign, integer part, optional fraction;
exponents are outside the subset used by this code). -/

def readNumber (cs : List Char) : Option (ℚ × List Char) :=
  let (neg, cs1) :=
    match cs with
    | '-' :: rest => (true, rest)
    | _ => (false, cs)
  let (ip, n1, cs2) := readDigits cs1 0 0
  if n1 = 0 then none
  else
    let (q, rest) :=
      match cs2 with
      | '.' :: cs3 =>
        let (fp, n2, cs4) := readDigits cs3 0 0
        (((ip : ℚ) + (fp : ℚ) / ((10 : ℚ) ^ n2)), cs4)
      | _ => ((ip : ℚ), cs2)
    some (if neg then -q else q, rest)

mutual

/-- Parse one JSON value (fuel-bounded recursive-descent over the grammar
`encoding/json` accepts, restricted to the subset these responses use). -/
def parseVal : ℕ → List Char → Option (Json × List Char)
  | 0, _ => none
  | fuel + 1, cs =>
    match skipWs cs with
    | [] => none
    | c :: rest =>
      if c = '"' then
        match readStrChars rest with
        | some (acc, rest') => some (.str (String.mk acc), rest')
        | none => none
      else if c = '{' then parseObjItems fuel rest
      else if c = '[' then parseArrItems fuel rest
      else if c = 't' then
        match rest with
        | 'r' :: 'u' :: 'e' :: rest' => some (.bool true, rest')
        | _ => none
      else if c = 'f' then
        match rest with
        | 'a' :: 'l' :: 's' :: 'e' :: rest' => some (.bool false, rest')
        | _ => none
      else if c = 'n' then
        match rest with
        | 'u' :: 'l' :: 'l' :: rest' => some (.null, rest')
        | _ => none
      else
        match readNumber (c :: rest) with
        | some (q, rest') => some (.num q, rest')
        | none => none

/-- Parse the items of a JSON array after the opening bracket. -/
def parseArrItems : ℕ → List Char → Option (Json × List Char)
  | 0, _ => none
  | fuel + 1, cs =>
    match skipWs cs with
    | ']' :: rest => some (.arr [], rest)
    | _ =>
      match parseVal fuel cs with
      | none => none
      | some (v, cs1) =>
        match skipWs cs1 with
        | ',' :: cs2 =>
          match parseArrItems fuel cs2 with
          | some (.arr vs, rest) => some (.arr (v :: vs), rest)
          | _ => none
        | ']' :: rest => some (.arr [v], rest)
        | _ => none

/-- Parse the members of a JSON object after the opening brace. -/
def parseObjItems : ℕ → List Char → Option (Json × List Char)
  | 0, _ => none
  | fuel + 1, cs =>
    match skipWs cs with
    | '}' :: rest => some (.obj [], rest)
    | '"' :: cs1 =>
      match readStrChars cs1 with
      | none => none
      | some (key, cs2) =>
        match skipWs cs2 with
        | ':' :: cs3 =>
          match parseVal fuel cs3 with
          | none => none
          | some (v, cs4) =>
            match skipWs cs4 with
            | ',' :: cs5 =>
              match parseObjItems fuel cs5 with
              | some (.obj kvs, rest) => some (.obj ((String.mk key, v) :: kvs), rest)
              | _ => none
            | '}' :: rest => some (.obj [(String.mk key, v)], rest)
            | _ => none
        | _ => none
    | _ => none

end

/-- Go's `json.Unmarshal(s, &m)` for `m : map[string]interface{}`, on the
JSON subset these responses use: the whole input must be one object with
nothing but whitespace after it. -/

def goUnmarshalObj (s : String) : Option Json :=
  match parseVal (s.length + 1) s.data with
  | some (.obj kvs, rest) => if skipWs rest = [] then some (.obj kvs) else none
  | _ => none

inductive PollOutcome where
  | done (result : Json)
  | ctxCancelled
  | hardError (msg : String)
  | timeout

/-- Observable trace of one `pollResult` call: its outcome, the number of
status requests issued, and the list of sleep durations (milliseconds)
performed between attempts. -/

structure PollTrace where
  outcome : PollOutcome
  requests : ℕ
  sleepsMs : List ℕ

/-- How a single poll attempt's response decides the loop, from the body of
`pollResult`: a failed query or a missing `data`/`state` field is a hard
error; `state == 4` is terminal and decodes the embedded `result` JSON
string (missing or undecodable `result` is a hard error); any other state
continues polling. -/

def attemptDecision (x : Except String Json) : Option PollOutcome :=
  match x with
  | .error e => some (.hardError e)
  | .ok resp =>
    match getObj resp "data" with
    | none => some (.hardError "missing data field in response")
    | some data =>
      match getNum data "state" with
      | none => some (.hardError "missing state in response")
      | some state =>
        if state = 4 then
          match getStr data "result" with
          | none => some (.hardError "missing result in response")
          | some resultStr =>
            match goUnmarshalObj resultStr with
            | none => some (.hardError "failed to parse result JSON")
            | some result => some (.done result)
        else none

/-- The `for i := 0; i < 500; i++` loop of `pollResult`, with the responder
(attempt index to query response) and the cancellation signal (whether
`ctx.Done()` is observed at the select at the head of that attempt) as the
environment; `fuel` is the number of remaining iterations.  Cancellation is
checked before the request of each attempt; a non-terminal attempt sleeps
1000 ms and continues. -/

def pollAux (r : ℕ → Except String Json) (c : ℕ → Bool) : ℕ → ℕ → PollTrace
  | _, 0 => ⟨.timeout, 0, []⟩
  | i, fuel + 1 =>
    if c i then ⟨.ctxCancelled, 0, []⟩
    else
      match attemptDecision (r i) with
      | some o => ⟨o, 1, []⟩
      | none =>
        let t := pollAux r c (i + 1) fuel
        ⟨t.outcome, t.requests + 1, 1000 :: t.sleepsMs⟩

/-- Bijian `pollResult`: the loop starting at attempt 0 with the hard cap of
500 iterations; exhausting the cap yields the timeout error. -/

def pollResult (r : ℕ → Except String Json) (c : ℕ → Bool) : PollTrace :=
  pollAux r c 0 500

/-- A poll attempt that keeps the loop going: not cancelled at its head, and
its response carries a numeric `data.state` different from the terminal
sentinel 4. -/

def attemptPending (r : ℕ → Except String Json) (c : ℕ → Bool) (j : ℕ) : Prop :=
  c j = false ∧ attemptDecision (r j) = none

/-- Running the loop across a block of pending attempts accumulates one
request and one 1000 ms sleep per attempt and continues after the block. -/

def getStringField (m : Json) (k : String) : String :=
  (getStr m k).getD ""

/-- JianYing `doRequest` response handling (src/unnamed/part_004 lines
512-561), given the decoded response of the one HTTP round trip (`.error`
models a transport/HTTP/decode failure): a response whose `ret` field is not
the string "0" is an API-level error. -/

def jyDoRequest (resp : Except String Json) : Except String Json :=
  match resp with
  | .error e => .error e
  | .ok result =>
    if getStringField result "ret" ≠ "0" then
      .error ("API returned error: ret=" ++ getStringField result "ret"
        ++ ", errmsg=" ++ getStringField result "errmsg")
    else .ok result

/-- JianYing `queryTask` (src/unnamed/part_004 lines 452-472): computes a
local signature (no network), then issues exactly one `doRequest` against the
query endpoint and returns its result.  The script lists the successive
network responses the environment would serve; the second component counts
the HTTP requests actually issued. -/

def jyQueryTask (script : List (Except String Json)) :
    Except String Json × ℕ :=
  match script with
  | [] => (.error "no response from transport", 0)
  | resp :: _ => (jyDoRequest resp, 1)

/-- Validation error (`ValidationError`): the offending field tag and a
message. -/

structure ValidationError where
  Field : String
  Message : String
deriving DecidableEq

/-- JianYing `Options` (second document of
src/asr/providers/elevenlabs/parse.go): start/end of the audio range in
seconds. -/

structure JYOptions where
  StartTime : ℚ
  EndTime : ℚ
deriving DecidableEq

/-- JianYing `Options.Validate` (same document, lines 84-102): fills the
default `EndTime` of 6000 when it is zero, then rejects negative times and a
start not strictly below the end.  The Go method mutates the receiver; the
model returns the mutated value on success. -/

def JYOptions.validate (o : JYOptions) : Except ValidationError JYOptions :=
  let o := if o.EndTime = 0 then { o with EndTime := 6000 } else o
  if o.StartTime < 0 then .error ⟨"StartTime", "must be non-negative"⟩
  else if o.EndTime < 0 then .error ⟨"EndTime", "must be non-negative"⟩
  else if o.StartTime ≥ o.EndTime then
    .error ⟨"StartTime/EndTime", "StartTime must be less than EndTime"⟩
  else .ok o

/-- ElevenLabs `Options` (src/asrprovider/providers/elevenlabs/options.go). -/

structure ELOptions where
  LanguageCode : String
  TagAudioEvents : Bool
deriving DecidableEq

/-- ElevenLabs `Options.Validate`: fills the default language code "auto";
always succeeds. -/

def ELOptions.validate (o : ELOptions) : Except ValidationError ELOptions :=
  .ok (if o.LanguageCode = "" then { o with LanguageCode := "auto" } else o)

/-- Bijian `Options` (src/asr/providers/bijian/options.go). -/

structure BJOptions where
  Cookie : String
deriving DecidableEq

/-- Bijian `Options.Validate`: always succeeds. -/

def BJOptions.validate (o : BJOptions) : Except ValidationError BJOptions :=
  .ok o

/-- A value of the `asr.FetchOptions` interface: one of the three backends'
concrete option types.  A nil interface value is modelled by `Option` at the
call sites. -/

inductive FetchOptions where
  | jy (o : JYOptions)
  | el (o : ELOptions)
  | bj (o : BJOptions)
deriving DecidableEq

/-- The observable phase a `Provider.Fetch` call reaches before any network
step: either validation failed (the workflow, and hence every network step,
is never entered), or the workflow is entered with the validated options. -/

inductive FetchPhase (α : Type) where
  | invalid (e : ValidationError)
  | workflow (opts : α)
deriving DecidableEq

/-- JianYing `Provider.Fetch` entry (src/unnamed/part_002 lines 72-85): the
dynamic type assertion on the options interface value falls back to a
default-constructed `Options{}` when the value is nil or of another type;
`Validate` runs before `fetch`, and a validation error returns before any
network step. -/

def jianyingProviderFetch (opts : Option FetchOptions) : FetchPhase JYOptions :=
  let o : JYOptions :=
    match opts with
    | some (.jy o) => o
    | _ => ⟨0, 0⟩
  match o.validate with
  | .error e => .invalid e
  | .ok o' => .workflow o'

/-- ElevenLabs `Provider.Fetch` entry
(src/asr/providers/elevenlabs/provider.go lines 67-80), same shape. -/

def elevenlabsProviderFetch (opts : Option FetchOptions) : FetchPhase ELOptions :=
  let o : ELOptions :=
    match opts with
    | some (.el o) => o
    | _ => ⟨"", false⟩
  match o.validate with
  | .error e => .invalid e
  | .ok o' => .workflow o'

/-- Bijian `Provider.Fetch` entry (src/asr/providers/bijian/provider.go lines
68-81), same shape. -/

def bijianProviderFetch (opts : Option FetchOptions) : FetchPhase BJOptions :=
  let o : BJOptions :=
    match opts with
    | some (.bj o) => o
    | _ => ⟨""⟩
  match o.validate with
  | .error e => .invalid e
  | .ok o' => .workflow o'

/-- Characterization of a successful ElevenLabs parse: possible only with a
`words` array whose normalization is the non-empty word list of the result. -/

def jyUtterancesOf (r : Json) : List Json :=
  match getObj r "data" with
  | some data => (getArr data "utterances").getD []
  | none => []

/-- Words of one JianYing utterance come from entries of its `words` array. -/

def c1Input : Json :=
  .obj [("text", .str "x"),
        ("words", .arr [.obj [("text", .str "w"), ("start", .num 5),
                              ("end", .num 2)]])]

/-- What the normalizer produces on `c1Input`. -/

def c1Output : StandardResult :=
  { Text := "x", Words := [⟨"w", 5000, 2000, ""⟩], Sentences := [],
    Language := "" }

/-- C1, counterexample: the normalizers do not check the ordering of the raw
timestamps, so a successful parse can carry a word with `Start > End`; the
claimed invariant fails on `c1Input`. -/

def c1WitnessInput : Json :=
  .obj [("text", .str "ok"),
        ("words", .arr [.obj [("text", .str "ok"), ("start", .num 1),
                              ("end", .num 2)]])]

/-- Its normalization. -/

def c1WitnessResult : StandardResult :=
  { Text := "ok", Words := [⟨"ok", 1000, 2000, ""⟩], Sentences := [],
    Language := "" }

/-- C1 witness: the amended invariant holds on a concrete well-ordered
input. -/

def jyPendingResp : Json :=
  .obj [("ret", .str "0"),
        ("data", .obj [("id", .str "q1"), ("state", .num 1)])]

/-- C4, counterexample: even when the environment is ready to serve 500
consecutive non-terminal responses, the JianYing task-query step consumes
exactly one of them, returns its payload directly, and produces no timeout
error — it does not poll. -/

def bjPendingResp : Json :=
  .obj [("code", .num 0), ("data", .obj [("state", .num 1)])]

/-- A responder that reports pending forever. -/

def bjPendingResponder : ℕ → Except String Json := fun _ => .ok bjPendingResp

/-- A cancellation signal that never fires. -/

def noCancel : ℕ → Bool := fun _ => false

/-- C5 witness: the always-pending responder exhausts the cap. -/

def bjDoneResp : Json :=
  .obj [("code", .num 0),
        ("data", .obj [("state", .num 4), ("result", .str "{}")])]

/-- A responder that is pending on attempts 0 and 1 and terminal on
attempt 2. -/

def c6Responder : ℕ → Except String Json :=
  fun n => if n < 2 then .ok bjPendingResp else .ok bjDoneResp

/-- C6 witness: with pending/pending/terminal responses, the loop completes
on attempt 2's payload after exactly 3 requests. -/

def c7Cancel : ℕ → Bool := fun n => decide (2 ≤ n)

/-- C7 witness: cancellation observed before attempt 2 stops the loop after
exactly 2 requests with the cancellation outcome. -/

def c8Input : Json := .obj [("text", .str "hi"), ("words", .arr [.obj []])]

/-- Its normalization: Go zero values are substituted for the missing
per-word fields. -/

def c8Output : StandardResult :=
  { Text := "hi", Words := [⟨"", 0, 0, ""⟩], Sentences := [], Language := "" }

/-- C8, counterexample: a word entry with missing `text`/`start`/`end`
fields does not produce a `ParseError` naming them — the parse succeeds with
zero-value defaults substituted. -/

lemma ratTrunc_nonneg_bounds (q : ℚ) (h : 0 ≤ q) :
    (ratTruncToInt q : ℚ) ≤ q ∧ q < ratTruncToInt q + 1 := by
  have hnum : 0 ≤ q.num := Rat.num_nonneg.mpr h
  rcases eq_or_lt_of_le hnum with h0 | hpos
  · have hq0 : q = 0 := by
      have := Rat.num_eq_zero.mp h0.symm
      exact this
    subst hq0
    constructor
    · simp [ratTruncToInt]
    · simp [ratTruncToInt]
  · have hsign : Int.sign q.num = 1 := Int.sign_eq_one_iff_pos.mpr hpos
    set n := q.num.natAbs with hn
    set d := q.den with hd
    have hdpos : 0 < d := q.pos
    have hqval : q = (n : ℚ) / (d : ℚ) := by
      have hcast : ((n : ℤ) : ℚ) = (q.num : ℚ) := by
        rw [hn, Int.natAbs_of_nonneg hnum]
      have := Rat.num_div_den q
      rw [← this]
      rw [← hcast]
      norm_num
    have htrunc : ratTruncToInt q = ((n / d : ℕ) : ℤ) := by
      rw [ratTruncToInt, hsign, one_mul]
    have hdq : (0 : ℚ) < (d : ℚ) := by exact_mod_cast hdpos
    have hmod : d * (n / d) + n % d = n := Nat.div_add_mod n d
    have hmodlt : n % d < d := Nat.mod_lt _ hdpos
    constructor
    · rw [htrunc, hqval, le_div_iff₀ hdq]
      have : (n / d) * d ≤ n := Nat.div_mul_le_self n d
      exact_mod_cast this
    · rw [htrunc, hqval, div_lt_iff₀ hdq]
      have hlt : n < (n / d + 1) * d := by
        calc n = d * (n / d) + n % d := (Nat.div_add_mod n d).symm
          _ < d * (n / d) + d := by omega
          _ = (n / d + 1) * d := by ring
      exact_mod_cast hlt

/-- Truncation toward zero of a non-negative rational is non-negative. -/

lemma ratTrunc_nonneg (q : ℚ) (h : 0 ≤ q) : 0 ≤ ratTruncToInt q := by
  have hb := (ratTrunc_nonneg_bounds q h).2
  by_contra hneg
  push_neg at hneg
  have : (ratTruncToInt q : ℚ) + 1 ≤ 0 := by
    have : ratTruncToInt q + 1 ≤ 0 := by omega
    exact_mod_cast this
  linarith

/-- Truncation toward zero is monotone on non-negative rationals. -/

lemma ratTrunc_mono (a b : ℚ) (ha : 0 ≤ a) (hab : a ≤ b) :
    ratTruncToInt a ≤ ratTruncToInt b := by
  have hb : 0 ≤ b := le_trans ha hab
  have h1 := (ratTrunc_nonneg_bounds a ha).1
  have h2 := (ratTrunc_nonneg_bounds b hb).2
  have : (ratTruncToInt a : ℚ) < (ratTruncToInt b : ℚ) + 1 := by linarith
  have : ratTruncToInt a < ratTruncToInt b + 1 := by exact_mod_cast this
  omega

/-- Word-level timestamp entry of the canonical transcript model
(`asr.Word`): text, start/end in integer milliseconds, optional speaker. -/

lemma pollAux_pending_run (r : ℕ → Except String Json) (c : ℕ → Bool)
    (m : ℕ) : ∀ (i fuel : ℕ), (∀ j, j < m → attemptPending r c (i + j)) →
    pollAux r c i (m + fuel) =
      ⟨(pollAux r c (i + m) fuel).outcome,
       (pollAux r c (i + m) fuel).requests + m,
       List.replicate m 1000 ++ (pollAux r c (i + m) fuel).sleepsMs⟩ := by
  induction m with
  | zero =>
    intro i fuel _
    simp
  | succ m ih =>
    intro i fuel h
    have h0 : attemptPending r c i := by
      have := h 0 (Nat.succ_pos m)
      simpa using this
    obtain ⟨hc, hd⟩ := h0
    have hstep : m + 1 + fuel = (m + fuel) + 1 := by omega
    rw [hstep]
    show (if c i then ⟨.ctxCancelled, 0, []⟩
      else
        match attemptDecision (r i) with
        | some o => ⟨o, 1, []⟩
        | none =>
          let t := pollAux r c (i + 1) (m + fuel)
          ⟨t.outcome, t.requests + 1, 1000 :: t.sleepsMs⟩ : PollTrace) = _
    rw [hc, hd]
    simp only [Bool.false_eq_true, if_false]
    have ih' := ih (i + 1) fuel (by
      intro j hj
      have := h (j + 1) (by omega)
      have harith : i + (j + 1) = i + 1 + j := by omega
      rwa [harith] at this)
    rw [ih']
    have harith2 : i + 1 + m = i + (m + 1) := by omega
    rw [harith2]
    simp [List.replicate_succ, Nat.add_assoc]

/-- An attempt whose head observes cancellation aborts before any request. -/

lemma pollAux_cancel_step (r : ℕ → Except String Json) (c : ℕ → Bool)
    (i fuel : ℕ) (hc : c i = true) :
    pollAux r c i (fuel + 1) = ⟨.ctxCancelled, 0, []⟩ := by
  show (if c i then ⟨.ctxCancelled, 0, []⟩
    else
      match attemptDecision (r i) with
      | some o => ⟨o, 1, []⟩
      | none =>
        let t := pollAux r c (i + 1) fuel
        ⟨t.outcome, t.requests + 1, 1000 :: t.sleepsMs⟩ : PollTrace) = _
  rw [hc]
  simp

/-- An attempt whose response is decisive ends the loop with that decision
after exactly one request and no further sleep. -/

lemma pollAux_finish_step (r : ℕ → Except String Json) (c : ℕ → Bool)
    (i fuel : ℕ) (o : PollOutcome) (hc : c i = false)
    (hd : attemptDecision (r i) = some o) :
    pollAux r c i (fuel + 1) = ⟨o, 1, []⟩ := by
  show (if c i then ⟨.ctxCancelled, 0, []⟩
    else
      match attemptDecision (r i) with
      | some o => ⟨o, 1, []⟩
      | none =>
        let t := pollAux r c (i + 1) fuel
        ⟨t.outcome, t.requests + 1, 1000 :: t.sleepsMs⟩ : PollTrace) = _
  rw [hc, hd]
  simp

/-- Go helper `getStringField` of the JianYing workflow (src/unnamed/part_004):
a string field's value, or the empty string. -/

lemma elParse_ok (r : Json) (res : StandardResult)
    (h : elevenlabsParse r = .ok res) :
    ∃ ws, getArr r "words" = some ws ∧
      res.Words = ws.filterMap elWordOf ∧ res.Words ≠ [] := by
  unfold elevenlabsParse at h
  split at h
  · cases h
  split at h
  · cases h
  next ws hW =>
  split at h
  · cases h
  next he =>
  rw [Except.ok.injEq] at h
  subst h
  exact ⟨ws, hW, rfl, he⟩

/-- Characterization of a successful JianYing parse. -/

lemma jyParse_ok (r : Json) (res : StandardResult)
    (h : jyParse r = .ok res) :
    ∃ data us, getObj r "data" = some data ∧ getArr data "utterances" = some us ∧
      res.Words = ((us.filter Json.isObj).map jyUttWords).flatten ∧
      res.Words ≠ [] := by
  unfold jyParse at h
  split at h
  · cases h
  next data hD =>
  split at h
  · cases h
  next us hU =>
  split at h
  · cases h
  next he =>
  rw [Except.ok.injEq] at h
  subst h
  exact ⟨data, us, hD, hU, rfl, he⟩

/-- Characterization of a successful Bijian parse. -/

lemma bjParse_ok (r : Json) (res : StandardResult)
    (h : bjParse r = .ok res) :
    ∃ us, getArr r "utterances" = some us ∧
      res.Words = ((us.filter Json.isObj).map bjUttWords).flatten ∧
      res.Words ≠ [] := by
  unfold bjParse at h
  split at h
  · cases h
  next us hU =>
  split at h
  · cases h
  next he =>
  rw [Except.ok.injEq] at h
  subst h
  exact ⟨us, hU, rfl, he⟩

/-- The timestamps a normalized ElevenLabs word carries, in terms of the raw
entry it came from. -/

lemma elWordOf_times (j : Json) (w : Word) (h : elWordOf j = some w) :
    w.Start = ratTruncToInt ((getNum j "start").getD 0 * 1000) ∧
    w.End = ratTruncToInt ((getNum j "end").getD 0 * 1000) := by
  cases j <;> simp [elWordOf] at h
  case obj kvs =>
    rw [← h]
    exact ⟨rfl, rfl⟩

/-- The timestamps a normalized JianYing word carries. -/

lemma jyWordOf_times (j : Json) (w : Word) (h : jyWordOf j = some w) :
    w.Start = ratTruncToInt ((getNum j "start_time").getD 0) ∧
    w.End = ratTruncToInt ((getNum j "end_time").getD 0) := by
  cases j <;> simp [jyWordOf] at h
  case obj kvs =>
    rw [← h]
    exact ⟨rfl, rfl⟩

/-- The timestamps a normalized Bijian word carries. -/

lemma bjWordOf_times (j : Json) (w : Word) (h : bjWordOf j = some w) :
    w.Start = ratTruncToInt ((getNum j "start_time").getD 0) ∧
    w.End = ratTruncToInt ((getNum j "end_time").getD 0) := by
  cases j <;> simp [bjWordOf] at h
  case obj kvs =>
    rw [← h]
    exact ⟨rfl, rfl⟩

/-- The utterance list a JianYing response exposes (empty when `data` or
`data.utterances` is absent). -/

lemma jyUttWords_mem (u : Json) (w : Word) (h : w ∈ jyUttWords u) :
    ∃ j ∈ (getArr u "words").getD [], jyWordOf j = some w := by
  unfold jyUttWords at h
  split at h
  next ws hws =>
    rw [hws]
    exact List.mem_filterMap.mp h
  next => cases h

/-- Words of one Bijian utterance come from entries of its `words` array. -/

lemma bjUttWords_mem (u : Json) (w : Word) (h : w ∈ bjUttWords u) :
    ∃ j ∈ (getArr u "words").getD [], bjWordOf j = some w := by
  unfold bjUttWords at h
  split at h
  next ws hws =>
    rw [hws]
    exact List.mem_filterMap.mp h
  next => cases h

/-- A raw ElevenLabs response whose single word entry reports start 5 s and
end 2 s: every field is present and well-typed, so parse succeeds. -/

theorem c1_words_ordered_cex :
    elevenlabsParse c1Input = .ok c1Output ∧ ¬ wordsOrdered c1Output := by
  constructor
  · with_unfolding_all rfl
  · decide

/-- C1 (amended): for every backend, if every word entry of the raw response
has extracted timestamps (Go zero value 0 substituted when absent) that are
non-negative and ordered, then every `Word` of a successful parse satisfies
`0 ≤ Start ≤ End`, in milliseconds. -/

theorem c1_words_ordered :
    (∀ r res, (∀ w ∈ (getArr r "words").getD [],
        0 ≤ (getNum w "start").getD 0 ∧
        (getNum w "start").getD 0 ≤ (getNum w "end").getD 0) →
      elevenlabsParse r = .ok res → wordsOrdered res) ∧
    (∀ r res, (∀ u ∈ jyUtterancesOf r, ∀ w ∈ (getArr u "words").getD [],
        0 ≤ (getNum w "start_time").getD 0 ∧
        (getNum w "start_time").getD 0 ≤ (getNum w "end_time").getD 0) →
      jyParse r = .ok res → wordsOrdered res) ∧
    (∀ r res, (∀ u ∈ (getArr r "utterances").getD [],
        ∀ w ∈ (getArr u "words").getD [],
        0 ≤ (getNum w "start_time").getD 0 ∧
        (getNum w "start_time").getD 0 ≤ (getNum w "end_time").getD 0) →
      bjParse r = .ok res → wordsOrdered res) := by
  refine ⟨?_, ?_, ?_⟩
  · intro r res hts h
    obtain ⟨ws, hW, hWords, _⟩ := elParse_ok r res h
    intro w hw
    rw [hWords] at hw
    obtain ⟨j, hj, hjw⟩ := List.mem_filterMap.mp hw
    obtain ⟨hS, hE⟩ := elWordOf_times j w hjw
    have hj' : j ∈ (getArr r "words").getD [] := by rw [hW]; exact hj
    obtain ⟨h0, hle⟩ := hts j hj'
    constructor
    · rw [hS]
      exact ratTrunc_nonneg _ (mul_nonneg h0 (by norm_num))
    · rw [hS, hE]
      exact ratTrunc_mono _ _ (mul_nonneg h0 (by norm_num))
        (mul_le_mul_of_nonneg_right hle (by norm_num))
  · intro r res hts h
    obtain ⟨data, us, hD, hU, hWords, _⟩ := jyParse_ok r res h
    intro w hw
    rw [hWords] at hw
    rw [List.mem_flatten] at hw
    obtain ⟨l, hl, hwl⟩ := hw
    obtain ⟨u, hu, rfl⟩ := List.mem_map.mp hl
    have huMem : u ∈ us := (List.mem_filter.mp hu).1
    obtain ⟨j, hj, hjw⟩ := jyUttWords_mem u w hwl
    obtain ⟨hS, hE⟩ := jyWordOf_times j w hjw
    have hub : u ∈ jyUtterancesOf r := by
      unfold jyUtterancesOf
      rw [hD]
      show u ∈ (getArr data "utterances").getD []
      rw [hU]
      exact huMem
    obtain ⟨h0, hle⟩ := hts u hub j hj
    exact ⟨by rw [hS]; exact ratTrunc_nonneg _ h0,
           by rw [hS, hE]; exact ratTrunc_mono _ _ h0 hle⟩
  · intro r res hts h
    obtain ⟨us, hU, hWords, _⟩ := bjParse_ok r res h
    intro w hw
    rw [hWords] at hw
    rw [List.mem_flatten] at hw
    obtain ⟨l, hl, hwl⟩ := hw
    obtain ⟨u, hu, rfl⟩ := List.mem_map.mp hl
    have huMem : u ∈ us := (List.mem_filter.mp hu).1
    obtain ⟨j, hj, hjw⟩ := bjUttWords_mem u w hwl
    obtain ⟨hS, hE⟩ := bjWordOf_times j w hjw
    have hub : u ∈ (getArr r "utterances").getD [] := by
      rw [hU]
      exact huMem
    obtain ⟨h0, hle⟩ := hts u hub j hj
    exact ⟨by rw [hS]; exact ratTrunc_nonneg _ h0,
           by rw [hS, hE]; exact ratTrunc_mono _ _ h0 hle⟩

/-- A well-ordered concrete ElevenLabs response for exercising C1. -/

theorem c1_words_ordered_witness : wordsOrdered c1WitnessResult := by
  refine c1_words_ordered.1 c1WitnessInput c1WitnessResult ?_
    (by with_unfolding_all rfl)
  have hred : (getArr c1WitnessInput "words").getD [] =
      [Json.obj [("text", .str "ok"), ("start", .num 1), ("end", .num 2)]] := by
    with_unfolding_all rfl
  rw [hred]
  intro w hw
  rw [List.mem_singleton] at hw
  subst hw
  have hs : (getNum (Json.obj [("text", Json.str "ok"), ("start", Json.num 1),
      ("end", Json.num 2)]) "start").getD 0 = 1 := by with_unfolding_all rfl
  have he : (getNum (Json.obj [("text", Json.str "ok"), ("start", Json.num 1),
      ("end", Json.num 2)]) "end").getD 0 = 2 := by with_unfolding_all rfl
  rw [hs, he]
  norm_num

/-- C2: the ElevenLabs normalizer multiplies fractional-second timestamps by
1000 and truncates toward zero: a generic word entry with numeric
`start`/`end` normalizes to `int64(start*1000)`/`int64(end*1000)`; on
non-negative inputs the truncation is the floor; 1.5 s is exactly 1500 ms;
and the spec's example response normalizes to the expected result. -/

theorem c2_fractional_seconds :
    (∀ (txt : String) (s e : ℚ),
      elWordOf (.obj [("text", .str txt), ("start", .num s), ("end", .num e)]) =
        some ⟨txt, ratTruncToInt (s * 1000), ratTruncToInt (e * 1000), ""⟩) ∧
    (∀ q : ℚ, 0 ≤ q →
      (ratTruncToInt (q * 1000) : ℚ) ≤ q * 1000 ∧
      q * 1000 < ratTruncToInt (q * 1000) + 1) ∧
    ratTruncToInt ((3/2 : ℚ) * 1000) = 1500 ∧
    elevenlabsParse elExample = .ok elExampleResult := by
  refine ⟨?_, ?_, ?_, ?_⟩
  · intro txt s e
    with_unfolding_all rfl
  · intro q hq
    exact ratTrunc_nonneg_bounds (q * 1000) (mul_nonneg hq (by norm_num))
  · with_unfolding_all rfl
  · with_unfolding_all rfl

/-- C2 witness: the floor bounds at the concrete fractional input 0.4 s. -/

theorem c2_fractional_seconds_witness :
    (ratTruncToInt ((2/5 : ℚ) * 1000) : ℚ) ≤ (2/5 : ℚ) * 1000 ∧
    (2/5 : ℚ) * 1000 < ratTruncToInt ((2/5 : ℚ) * 1000) + 1 :=
  c2_fractional_seconds.2.1 (2/5) (by norm_num)

/-- C3: a successful parse of any backend never carries an empty word list;
and a raw response with zero word entries yields the `ParseError` even when
its text (ElevenLabs) or its sentences (JianYing) are non-empty. -/

theorem c3_nonempty_words :
    (∀ r res, elevenlabsParse r = .ok res → res.Words ≠ []) ∧
    (∀ r res, jyParse r = .ok res → res.Words ≠ []) ∧
    (∀ r res, bjParse r = .ok res → res.Words ≠ []) ∧
    elevenlabsParse (.obj [("text", .str "hi there"), ("words", .arr [])]) =
      .error ⟨"no words found in response"⟩ ∧
    jyParse (.obj [("data", .obj [("utterances", .arr
      [.obj [("text", .str "hello"), ("start_time", .num 0),
             ("end_time", .num 5)]])])]) =
      .error ⟨"no words found in response"⟩ := by
  refine ⟨?_, ?_, ?_, ?_, ?_⟩
  · intro r res h
    obtain ⟨_, _, _, hne⟩ := elParse_ok r res h
    exact hne
  · intro r res h
    obtain ⟨_, _, _, _, _, hne⟩ := jyParse_ok r res h
    exact hne
  · intro r res h
    obtain ⟨_, _, _, hne⟩ := bjParse_ok r res h
    exact hne
  · with_unfolding_all rfl
  · with_unfolding_all rfl

/-- C3 witness: the non-emptiness guarantee at a concrete successful parse. -/

theorem c3_nonempty_words_witness : c1WitnessResult.Words ≠ [] :=
  c3_nonempty_words.1 c1WitnessInput c1WitnessResult
    (by with_unfolding_all rfl)

/-- A JianYing query response whose `ret` is the success sentinel "0" but
whose task payload is in a non-terminal state. -/

theorem c4_jianying_polling_cex :
    jyQueryTask (List.replicate 500 (.ok jyPendingResp)) =
      (.ok jyPendingResp, 1) := by
  with_unfolding_all rfl

/-- C4 (amended): the signed multi-step backend's task-query step issues at
most one request — exactly one signed query whose response is returned after
the `ret`-field check — with no polling loop, no attempt cap and no timeout
error; the 1-second/500-attempt polling policy applies only to the
chunked-upload backend's `pollResult`. -/

theorem c4_jianying_single_query :
    (∀ script, (jyQueryTask script).2 ≤ 1) ∧
    (∀ resp rest, getStringField resp "ret" = "0" →
      jyQueryTask (.ok resp :: rest) = (.ok resp, 1)) := by
  constructor
  · intro script
    cases script <;> simp [jyQueryTask]
  · intro resp rest h
    show (jyDoRequest (.ok resp), 1) = (.ok resp, 1)
    simp [jyDoRequest, h]

/-- C4 witness: a single-element script already completes the query. -/

theorem c4_jianying_single_query_witness :
    jyQueryTask [.ok jyPendingResp] = (.ok jyPendingResp, 1) :=
  c4_jianying_single_query.2 jyPendingResp [] (by with_unfolding_all rfl)

/-- C5: when all 500 attempts stay pending (never the terminal state 4), the
Bijian poll loop issues exactly 500 status requests, sleeps 1000 ms after
each, and fails with the timeout outcome. -/

theorem c5_poll_timeout (r : ℕ → Except String Json) (c : ℕ → Bool)
    (h : ∀ j, j < 500 → attemptPending r c j) :
    pollResult r c = ⟨.timeout, 500, List.replicate 500 1000⟩ := by
  have hrun := pollAux_pending_run r c 500 0 0
    (by intro j hj; simpa using h j hj)
  rw [Nat.add_zero] at hrun
  unfold pollResult
  rw [hrun]
  have h0 : pollAux r c (0 + 500) 0 = ⟨.timeout, 0, []⟩ := rfl
  rw [h0]
  show (⟨.timeout, 0 + 500, List.replicate 500 1000 ++ []⟩ : PollTrace) = _
  rw [Nat.zero_add, List.append_nil]

/-- A Bijian status response whose `data.state` is 1 (pending). -/

theorem c5_poll_timeout_witness :
    pollResult bjPendingResponder noCancel =
      ⟨.timeout, 500, List.replicate 500 1000⟩ :=
  c5_poll_timeout bjPendingResponder noCancel
    (fun _ _ => ⟨rfl, by with_unfolding_all rfl⟩)

/-- C6: each poll attempt is decided by the status alone — the loop stops at
the first attempt whose `data.state` equals the terminal sentinel 4, using
exactly that attempt's payload (decoding its embedded `result` JSON string)
and issuing no request beyond it; a non-terminal numeric state continues
polling; a missing `data` field or a missing/non-numeric `state` field is a
hard failure, not a retry. -/

theorem c6_poll_attempt_decision :
    (∀ (r : ℕ → Except String Json) (c : ℕ → Bool) (k : ℕ) (o : PollOutcome),
      k < 500 → (∀ j, j < k → attemptPending r c j) → c k = false →
      attemptDecision (r k) = some o →
      pollResult r c = ⟨o, k + 1, List.replicate k 1000⟩) ∧
    (∀ resp data s, getObj resp "data" = some data →
      getNum data "state" = some 4 → getStr data "result" = some s →
      attemptDecision (.ok resp) =
        some (match goUnmarshalObj s with
              | some v => .done v
              | none => .hardError "failed to parse result JSON")) ∧
    (∀ resp data st, getObj resp "data" = some data →
      getNum data "state" = some st → st ≠ 4 →
      attemptDecision (.ok resp) = none) ∧
    (∀ resp data, getObj resp "data" = some data →
      getNum data "state" = none →
      attemptDecision (.ok resp) =
        some (.hardError "missing state in response")) ∧
    (∀ resp, getObj resp "data" = none →
      attemptDecision (.ok resp) =
        some (.hardError "missing data field in response")) := by
  refine ⟨?_, ?_, ?_, ?_, ?_⟩
  · intro r c k o hk hpend hc hd
    obtain ⟨fuel, hfuel⟩ : ∃ fuel, 500 = k + (fuel + 1) := ⟨500 - k - 1, by omega⟩
    unfold pollResult
    rw [hfuel]
    have hrun := pollAux_pending_run r c k 0 (fuel + 1)
      (by intro j hj; simpa using hpend j hj)
    rw [hrun]
    have hfin := pollAux_finish_step r c (0 + k) fuel o
      (by rw [Nat.zero_add]; exact hc) (by rw [Nat.zero_add]; exact hd)
    rw [hfin]
    show (⟨o, 1 + k, List.replicate k 1000 ++ []⟩ : PollTrace) = _
    rw [Nat.add_comm 1 k, List.append_nil]
  · intro resp data s h1 h2 h3
    simp only [attemptDecision, h1, h2, h3, if_true]
    cases hg : goUnmarshalObj s <;> simp [hg]
  · intro resp data st h1 h2 hne
    simp [attemptDecision, h1, h2, hne]
  · intro resp data h1 h2
    simp [attemptDecision, h1, h2]
  · intro resp h1
    simp [attemptDecision, h1]

/-- A Bijian status response in the terminal state 4 whose embedded result
string is the empty JSON object. -/

theorem c6_poll_attempt_decision_witness :
    pollResult c6Responder noCancel =
      ⟨.done (.obj []), 3, List.replicate 2 1000⟩ :=
  c6_poll_attempt_decision.1 c6Responder noCancel 2 (.done (.obj []))
    (by norm_num)
    (by
      intro j hj
      interval_cases j
      · exact ⟨rfl, by with_unfolding_all rfl⟩
      · exact ⟨rfl, by with_unfolding_all rfl⟩)
    rfl
    (by with_unfolding_all rfl)

/-- C7: cancellation is checked at the head of every attempt — if the signal
is observed at attempt `k` after `k` pending attempts, the `k`-th status
request is never issued (exactly `k` requests happened) and the loop returns
the cancellation outcome, which is distinct from the timeout outcome. -/

theorem c7_poll_cancellation :
    (∀ (r : ℕ → Except String Json) (c : ℕ → Bool) (k : ℕ),
      k < 500 → (∀ j, j < k → attemptPending r c j) → c k = true →
      pollResult r c = ⟨.ctxCancelled, k, List.replicate k 1000⟩) ∧
    (PollOutcome.ctxCancelled ≠ PollOutcome.timeout) := by
  constructor
  · intro r c k hk hpend hc
    obtain ⟨fuel, hfuel⟩ : ∃ fuel, 500 = k + (fuel + 1) := ⟨500 - k - 1, by omega⟩
    unfold pollResult
    rw [hfuel]
    have hrun := pollAux_pending_run r c k 0 (fuel + 1)
      (by intro j hj; simpa using hpend j hj)
    rw [hrun]
    have hcan := pollAux_cancel_step r c (0 + k) fuel
      (by rw [Nat.zero_add]; exact hc)
    rw [hcan]
    show (⟨.ctxCancelled, 0 + k, List.replicate k 1000 ++ []⟩ : PollTrace) = _
    rw [Nat.zero_add, List.append_nil]
  · intro h
    cases h

/-- A cancellation signal that fires from attempt 2 onward. -/

theorem c7_poll_cancellation_witness :
    pollResult bjPendingResponder c7Cancel =
      ⟨.ctxCancelled, 2, List.replicate 2 1000⟩ :=
  c7_poll_cancellation.1 bjPendingResponder c7Cancel 2 (by norm_num)
    (by
      intro j hj
      interval_cases j
      · exact ⟨rfl, by with_unfolding_all rfl⟩
      · exact ⟨rfl, by with_unfolding_all rfl⟩)
    rfl

/-- A raw ElevenLabs response whose single word entry is an object with all
per-word fields (`text`, `start`, `end`) absent. -/

theorem c8_missing_fields_cex :
    elevenlabsParse c8Input = .ok c8Output ∧
    ∀ e, elevenlabsParse c8Input ≠ .error e := by
  have hok : elevenlabsParse c8Input = .ok c8Output := by with_unfolding_all rfl
  refine ⟨hok, ?_⟩
  intro e h
  rw [hok] at h
  cases h

/-- C8 (amended): a *top-level* required field that is absent or of the
wrong shape produces a `ParseError` naming it (`text` and `words` for
ElevenLabs; `data` and `data.utterances` for JianYing; `utterances` for
Bijian); absent or wrong-shaped *per-word* fields are substituted with Go
zero values (empty text, 0 timestamps) instead. -/

theorem c8_missing_fields :
    (∀ r, getStr r "text" = none →
      elevenlabsParse r = .error ⟨"missing text field in response"⟩) ∧
    (∀ r text, getStr r "text" = some text → getArr r "words" = none →
      elevenlabsParse r = .error ⟨"missing words field in response"⟩) ∧
    (∀ r, getObj r "data" = none →
      jyParse r = .error ⟨"missing data field in response"⟩) ∧
    (∀ r data, getObj r "data" = some data → getArr data "utterances" = none →
      jyParse r = .error ⟨"missing utterances field in data"⟩) ∧
    (∀ r, getArr r "utterances" = none →
      bjParse r = .error ⟨"missing utterances field in response"⟩) ∧
    elWordOf (.obj []) = some ⟨"", 0, 0, ""⟩ ∧
    jyWordOf (.obj []) = some ⟨"", 0, 0, ""⟩ ∧
    bjWordOf (.obj []) = some ⟨"", 0, 0, ""⟩ := by
  refine ⟨?_, ?_, ?_, ?_, ?_, ?_, ?_, ?_⟩
  · intro r h
    simp [elevenlabsParse, h]
  · intro r text hT hW
    simp [elevenlabsParse, hT, hW]
  · intro r h
    simp [jyParse, h]
  · intro r data hD hU
    simp [jyParse, hD, hU]
  · intro r h
    simp [bjParse, h]
  · with_unfolding_all rfl
  · with_unfolding_all rfl
  · with_unfolding_all rfl

/-- C8 witness: the empty object misses every top-level field. -/

theorem c8_missing_fields_witness :
    elevenlabsParse (.obj []) = .error ⟨"missing text field in response"⟩ :=
  c8_missing_fields.1 (.obj []) (by with_unfolding_all rfl)

/-- C9: JianYing option validation runs before the workflow — options with
`StartTime=10, EndTime=5` fail with the field-tagged error and
`Provider.Fetch` never reaches the workflow (no network step); all-zero
options have `EndTime` filled with the documented default 6000 and pass. -/

theorem c9_jianying_validate :
    JYOptions.validate ⟨10, 5⟩ =
      .error ⟨"StartTime/EndTime", "StartTime must be less than EndTime"⟩ ∧
    jianyingProviderFetch (some (.jy ⟨10, 5⟩)) =
      .invalid ⟨"StartTime/EndTime", "StartTime must be less than EndTime"⟩ ∧
    JYOptions.validate ⟨0, 0⟩ = .ok ⟨0, 6000⟩ := by
  refine ⟨?_, ?_, ?_⟩ <;> with_unfolding_all rfl

/-- C10: for every provider, a nil options value or an options value of
another backend's type is silently replaced by a default-constructed
`Options{}`, which validates successfully, so `Fetch` proceeds into the
workflow with the validated defaults instead of failing. -/

theorem c10_default_options :
    (jianyingProviderFetch none = .workflow ⟨0, 6000⟩ ∧
     ∀ (e : ELOptions) (b : BJOptions),
       jianyingProviderFetch (some (.el e)) = .workflow ⟨0, 6000⟩ ∧
       jianyingProviderFetch (some (.bj b)) = .workflow ⟨0, 6000⟩) ∧
    (elevenlabsProviderFetch none = .workflow ⟨"auto", false⟩ ∧
     ∀ (j : JYOptions) (b : BJOptions),
       elevenlabsProviderFetch (some (.jy j)) = .workflow ⟨"auto", false⟩ ∧
       elevenlabsProviderFetch (some (.bj b)) = .workflow ⟨"auto", false⟩) ∧
    (bijianProviderFetch none = .workflow ⟨""⟩ ∧
     ∀ (j : JYOptions) (e : ELOptions),
       bijianProviderFetch (some (.jy j)) = .workflow ⟨""⟩ ∧
       bijianProviderFetch (some (.el e)) = .workflow ⟨""⟩) := by
  refine ⟨⟨?_, ?_⟩, ⟨?_, ?_⟩, ⟨?_, ?_⟩⟩
  · with_unfolding_all rfl
  · intro e b
    exact ⟨by with_unfolding_all rfl, by with_unfolding_all rfl⟩
  · with_unfolding_all rfl
  · intro j b
    exact ⟨by with_unfolding_all rfl, by with_unfolding_all rfl⟩
  · with_unfolding_all rfl
  · intro j e
    exact ⟨by with_unfolding_all rfl, by with_unfolding_all rfl⟩
